import Mathlib

/-!
Verification of `release.go`: a release-note generator that pages through
closed pull requests of a GitHub repository, collects the merged PRs lying
between two boundary PR numbers ("last" and "current"), sorts them by merge
time, formats them into note lines (optionally keeping only PRs carrying a
"release-note" label), and finally publishes a GitHub release.

The Go program is shallowly embedded below.  Timestamps (`time.Time`) are
modelled as integers; `nil`-able pointers become `Option`; a `nil`-pointer
dereference (a Go panic) is modelled by an `Option` result being `none`.
The GitHub client is modelled by explicit inputs: the paginated PR listing
becomes a list of pages, the per-PR label listing and the create-release
endpoint become function parameters returning `Except`.
-/

namespace Release

/-- A pull request as used by the program: `Number`, `Title`, `User.Login`,
`MergedAt` (nullable: `none` means closed but not merged) and `UpdatedAt`.
The fields the program dereferences unconditionally are kept non-optional. -/
structure PullRequest where
  number : Nat
  title : String
  userLogin : String
  mergedAt : Option Int
  updatedAt : Int
  deriving DecidableEq, Repr

/-- The mutable state of `main`'s fetch loop: the `done` flag, the
accumulated candidate slice `prs`, the two boundary merge-time pointers
`lastVersionMerged` / `currentVersionMerged`, and the (mutable) value of the
`current` flag variable. -/
structure ScanState where
  done : Bool
  prs : List PullRequest
  lastMerged : Option Int
  currentMerged : Option Int
  current : Nat
  deriving DecidableEq, Repr

/-- The state before the first loop iteration (release.go lines 88-91):
`done = false`, empty candidate slice, both boundary pointers `nil`, and
`current` holding the value of the `--current` flag. -/
def initState (currentFlag : Nat) : ScanState :=
  { done := false, prs := [], lastMerged := none, currentMerged := none,
    current := currentFlag }

/-- The early-termination test of release.go line 125:
`lastVersionMerged != nil && lastVersionMerged.After(*result.UpdatedAt)`. -/
def termCond (lastMerged : Option Int) (pr : PullRequest) : Bool :=
  match lastMerged with
  | some lt => decide (pr.updatedAt < lt)
  | none => false

/-- The inner loop of `main` over one fetched page (release.go lines
112-135).  For each result in order: skip unmerged PRs; on the `last` PR
record its merge time and stop the page; if the termination test fires set
`done` and stop; if the PR's number equals `current` record its merge time
as the upper boundary; then (in that same fall-through) append the PR to the
candidate slice. -/
def processPage (lastN : Nat) (st : ScanState) : List PullRequest → ScanState
  | [] => st
  | pr :: rest =>
    match pr.mergedAt with
    | none => processPage lastN st rest
    | some m =>
      if pr.number = lastN then
        { st with lastMerged := some m }
      else if termCond st.lastMerged pr then
        { st with done := true }
      else
        let st1 := if pr.number = st.current then { st with currentMerged := some m } else st
        processPage lastN { st1 with prs := st1.prs ++ [pr] } rest

/-- The outer fetch loop of `main` (release.go lines 94-137).  Pages are
supplied as a list (page 1, page 2, ...).  While `done` is false: an empty
page sets `done` and stops; otherwise, if the `current` flag variable is
still `0` it is set to the number of the first item of the page (lines
108-111), and the page is scanned by `processPage`. -/
def scan (lastN : Nat) : ScanState → List (List PullRequest) → ScanState
  | st, [] => st
  | st, page :: rest =>
    if st.done then st
    else
      match page with
      | [] => { st with done := true }
      | p :: ps =>
        let st1 := if st.current = 0 then { st with current := p.number } else st
        scan lastN (processPage lastN st1 (p :: ps)) rest

/-- The whole fetch phase, from the initial state. -/
def runScan (lastN currentFlag : Nat) (pages : List (List PullRequest)) : ScanState :=
  scan lastN (initState currentFlag) pages

/-- The sort key of the `byMerged` comparator: the merge time behind the
`MergedAt` pointer.  In Go, `Less` dereferences `MergedAt` on both sides
(a `nil` would panic); the scan-loop invariant (every accumulated PR is
merged) keeps that dereference safe, so the default `0` branch is inert on
the lists the program sorts. -/
def mergedKey (pr : PullRequest) : Int :=
  pr.mergedAt.getD 0

/-- The ordering established by `sort.Sort(byMerged(prs))` (release.go lines
30-34 and 138): afterwards, for `i < j`, `Less(j, i)` is false, i.e. the
merge keys are non-decreasing.  `sort.Sort` is not stable, so only this
relation (not the tie order) is guaranteed. -/
def byMerged (a b : PullRequest) : Prop :=
  mergedKey a ≤ mergedKey b

instance : DecidableRel byMerged :=
  fun a b => inferInstanceAs (Decidable (mergedKey a ≤ mergedKey b))

instance : IsTotal PullRequest byMerged :=
  ⟨fun a b => Int.le_total (mergedKey a) (mergedKey b)⟩

instance : IsTrans PullRequest byMerged :=
  ⟨fun _ _ _ => le_trans⟩

/-- The sort of release.go line 138, modelled by a concrete sorting
algorithm realising `sort.Sort`'s postcondition for the `byMerged`
comparator (the tie order, unspecified in Go, is fixed arbitrarily). -/
def sortByMerged (prs : List PullRequest) : List PullRequest :=
  prs.insertionSort byMerged

example : runScan 10 0 [[]] = { initState 0 with done := true } := rfl

example :
    (runScan 10 20
      [[{ number := 20, title := "c", userLogin := "u", mergedAt := some 5, updatedAt := 5 }], []]).prs
      = [{ number := 20, title := "c", userLogin := "u", mergedAt := some 5, updatedAt := 5 }] := rfl

/-- The guard of release.go line 141:
`lastVersionMerged.Before(*pr.MergedAt) && (pr.MergedAt.Before(*currentVersionMerged))`.
Go evaluates the left conjunct first, dereferencing `lastVersionMerged` and
`pr.MergedAt`; only when it is true does the right conjunct dereference
`currentVersionMerged` (`&&` short-circuits).  A `nil` dereference (panic)
is `none`; otherwise the guard's boolean value is returned. -/
def windowCond (lastMerged currentMerged : Option Int) (pr : PullRequest) : Option Bool :=
  match lastMerged with
  | none => none
  | some l =>
    match pr.mergedAt with
    | none => none
    | some m =>
      if l < m then
        match currentMerged with
        | none => none
        | some c => some (decide (m < c))
      else
        some false

/-- One note line, `"   * %s (#%d, @%s)\n"` (release.go lines 143 and 156). -/
def formatLine (pr : PullRequest) : String :=
  "   * " ++ pr.title ++ " (#" ++ toString pr.number ++ ", @" ++ pr.userLogin ++ ")\n"

/-- The observable side effects of the label-filter path: the
`ListLabelsByIssue` call for a PR number, and the fixed sleep (seconds). -/
inductive Event where
  | listLabels (prNumber : Nat)
  | sleep (seconds : Nat)
  deriving DecidableEq, Repr

/-- The note-formatting loop of release.go lines 140-161, over the sorted
candidate list.  Returns the label-path events in order, together with the
emitted PRs in order (`none` models an abort: a `nil`-pointer panic in the
window guard, or `os.Exit(1)` after a failed label call).  A PR passing the
window guard is emitted once when the filter is off; when the filter is on,
its labels are fetched (`listLabels` then a 5 second sleep, the sleep
happening before the error check), and the PR is emitted once per label
whose name equals `"release-note"`. -/
def genNotes (relnoteFilter : Bool) (labelFetch : Nat → Except Unit (List String))
    (lastMerged currentMerged : Option Int) :
    List PullRequest → List Event × Option (List PullRequest)
  | [] => ([], some [])
  | pr :: rest =>
    match windowCond lastMerged currentMerged pr with
    | none => ([], none)
    | some false => genNotes relnoteFilter labelFetch lastMerged currentMerged rest
    | some true =>
      if relnoteFilter then
        match labelFetch pr.number with
        | Except.error _ => ([Event.listLabels pr.number, Event.sleep 5], none)
        | Except.ok labels =>
          let r := genNotes relnoteFilter labelFetch lastMerged currentMerged rest
          (Event.listLabels pr.number :: Event.sleep 5 :: r.1,
            r.2.map (fun tail =>
              (labels.filter (fun s => s == "release-note")).map (fun _ => pr) ++ tail))
      else
        let r := genNotes relnoteFilter labelFetch lastMerged currentMerged rest
        (r.1, r.2.map (fun tail => pr :: tail))

/-- Checks that every `listLabels` event is immediately followed by a
5 second `sleep` event. -/
def sleepAfterEveryCall : List Event → Bool
  | [] => true
  | Event.listLabels _ :: Event.sleep 5 :: rest => sleepAfterEveryCall rest
  | Event.listLabels _ :: _ => false
  | _ :: rest => sleepAfterEveryCall rest

/-- The `github.RepositoryRelease` value built at release.go lines 172-177:
tag name, release name, prerelease flag and body text. -/
structure ReleaseDraft where
  tagName : String
  name : String
  prerelease : Bool
  body : String
  deriving DecidableEq, Repr

/-- Builds the `github.RepositoryRelease` value of release.go lines
172-177 from the four flag values and the note body. -/
def mkDraft (tagName releaseName : String) (preRelease : Bool) (body : String) : ReleaseDraft :=
  { tagName := tagName, name := releaseName, prerelease := preRelease, body := body }

/-- The observable actions of the tail of `main` (release.go lines
162-184), in program order: the blank line, the header line, the notes
block, the release-usage message, the `CreateRelease` call (with its owner
and repository arguments), the error print, and the release-URL print. -/
inductive Action where
  | printBlankLine
  | printHeader (lastN currentN : Nat) (base : String)
  | printNotes (body : String)
  | printReleaseUsage
  | createRelease (owner repo : String) (draft : ReleaseDraft)
  | printReleaseError
  | printReleaseUrl (url : String)
  deriving DecidableEq, Repr

/-- Recognises the `CreateRelease` action. -/
def isCreateRelease : Action → Bool
  | Action.createRelease _ _ _ => true
  | _ => false

/-- The tail of `main` (release.go lines 162-184): print the blank line,
the header and the notes block; if the tag name or the release name flag is
empty, print the release usage and exit 1; otherwise build the draft and
call `CreateRelease` on the literal pair `("zjj2wry", "console-web")` —
the `owner` and `repository` flag values are taken as parameters here but,
as in the source, are not used by this phase.  On an API error the process
prints the error and exits 1; on success it prints the release URL and
exits 0.  Returns the action list and the exit code. -/
def finishMain (owner repository : String) (lastN currentN : Nat) (base : String)
    (tagName releaseName : String) (preRelease : Bool) (body : String)
    (createReleaseApi : String → String → ReleaseDraft → Except Unit String) :
    List Action × Nat :=
  let pre : List Action :=
    [Action.printBlankLine, Action.printHeader lastN currentN base, Action.printNotes body]
  if tagName = "" ∨ releaseName = "" then
    (pre ++ [Action.printReleaseUsage], 1)
  else
    let draft : ReleaseDraft := mkDraft tagName releaseName preRelease body
    match createReleaseApi "zjj2wry" "console-web" draft with
    | Except.error _ =>
      (pre ++ [Action.createRelease "zjj2wry" "console-web" draft, Action.printReleaseError], 1)
    | Except.ok url =>
      (pre ++ [Action.createRelease "zjj2wry" "console-web" draft, Action.printReleaseUrl url], 0)

/-! Concrete fixtures, used by the closed sanity statements below. -/

/-- Example PR merged after the current boundary. -/
def prAfter : PullRequest :=
  { number := 25, title := "after", userLogin := "u1", mergedAt := some 25, updatedAt := 25 }

/-- Example current-boundary PR (number 20). -/
def prCur : PullRequest :=
  { number := 20, title := "cur", userLogin := "u2", mergedAt := some 20, updatedAt := 20 }

/-- Example PR merged strictly between the boundaries. -/
def prMid : PullRequest :=
  { number := 15, title := "mid", userLogin := "u3", mergedAt := some 15, updatedAt := 15 }

/-- Example PR merged before the last boundary but updated recently. -/
def prOld : PullRequest :=
  { number := 5, title := "old", userLogin := "u4", mergedAt := some 5, updatedAt := 12 }

/-- Example last-boundary PR (number 10). -/
def prLast : PullRequest :=
  { number := 10, title := "lastpr", userLogin := "u5", mergedAt := some 10, updatedAt := 10 }

/-- Example page sequence: one full page (newest-updated first) and then an
empty page ending the fetch. -/
def exPages : List (List PullRequest) :=
  [[prAfter, prCur, prMid, prOld, prLast], []]

/-- Example merged PR whose number equals the current boundary (20). -/
def prCurOnly : PullRequest :=
  { number := 20, title := "c", userLogin := "u", mergedAt := some 5, updatedAt := 5 }

/-- Example page sequence containing only a merged PR whose number equals
the current boundary. -/
def exPagesCurOnly : List (List PullRequest) :=
  [[prCurOnly], []]

/-- Example candidate merged before the last boundary. -/
def prEarly : PullRequest :=
  { number := 7, title := "early", userLogin := "u6", mergedAt := some 3, updatedAt := 3 }

/-- Example PR used for the duplicate-label scenario. -/
def prDup : PullRequest :=
  { number := 42, title := "dup", userLogin := "u7", mergedAt := some 5, updatedAt := 5 }

/-- Example label listing: every PR has exactly one label, `release-note`. -/
def exLabels : Nat → Except Unit (List String) :=
  fun _ => Except.ok ["release-note"]

/-- Example first-fetched PR: closed but unmerged. -/
def prFirstUnmerged : PullRequest :=
  { number := 25, title := "first", userLogin := "u", mergedAt := none, updatedAt := 25 }

/-- Example create-release endpoint that always succeeds. -/
def exApiOk : String → String → ReleaseDraft → Except Unit String :=
  fun _ _ _ => Except.ok "https://github.test/rel/1"

/-- Example label listing returning two labels both named `release-note`. -/
def exLabelsDup : Nat → Except Unit (List String) :=
  fun _ => Except.ok ["release-note", "release-note"]

example : (runScan 10 20 exPages).prs = [prAfter, prCur, prMid, prOld] := rfl

example : (runScan 10 20 exPages).lastMerged = some 10 := rfl

example : (runScan 10 20 exPages).currentMerged = some 20 := rfl

example : sortByMerged [prAfter, prCur, prMid, prOld] = [prOld, prMid, prCur, prAfter] := rfl

example :
    (genNotes false exLabels (some 10) (some 20) [prOld, prMid, prCur, prAfter]).2
      = some [prMid] := rfl

/-! Helper lemmas about the scan loop. -/

/-- Unfolding `processPage` at an unmerged PR (release.go lines 115-118). -/
theorem processPage_cons_unmerged (lastN : Nat) (st : ScanState) (pr : PullRequest)
    (rest : List PullRequest) (hm : pr.mergedAt = none) :
    processPage lastN st (pr :: rest) = processPage lastN st rest := by
  simp [processPage, hm]

/-- Unfolding `processPage` at the `last` PR (release.go lines 120-124). -/
theorem processPage_cons_last (lastN : Nat) (st : ScanState) (pr : PullRequest)
    (rest : List PullRequest) (m : Int) (hm : pr.mergedAt = some m) (h1 : pr.number = lastN) :
    processPage lastN st (pr :: rest) = { st with lastMerged := some m } := by
  simp [processPage, hm, h1]

/-- Unfolding `processPage` when the termination test fires (release.go
lines 125-128). -/
theorem processPage_cons_term (lastN : Nat) (st : ScanState) (pr : PullRequest)
    (rest : List PullRequest) (m : Int) (hm : pr.mergedAt = some m) (h1 : pr.number ≠ lastN)
    (h2 : termCond st.lastMerged pr = true) :
    processPage lastN st (pr :: rest) = { st with done := true } := by
  simp [processPage, hm, h1, h2]

/-- Unfolding `processPage` at a merged PR matching neither boundary nor
the termination test (release.go lines 129-134): it is appended. -/
theorem processPage_cons_plain (lastN : Nat) (st : ScanState) (pr : PullRequest)
    (rest : List PullRequest) (m : Int) (hm : pr.mergedAt = some m) (h1 : pr.number ≠ lastN)
    (h2 : termCond st.lastMerged pr = false) (h3 : pr.number ≠ st.current) :
    processPage lastN st (pr :: rest)
      = processPage lastN { st with prs := st.prs ++ [pr] } rest := by
  simp [processPage, hm, h1, h2, h3]

/-- Unfolding `processPage` at a merged PR whose number equals `current`
(release.go lines 129-134): the upper boundary is recorded and the PR is
appended as well. -/
theorem processPage_cons_cur (lastN : Nat) (st : ScanState) (pr : PullRequest)
    (rest : List PullRequest) (m : Int) (hm : pr.mergedAt = some m) (h1 : pr.number ≠ lastN)
    (h2 : termCond st.lastMerged pr = false) (h3 : pr.number = st.current) :
    processPage lastN st (pr :: rest)
      = processPage lastN { st with currentMerged := some m, prs := st.prs ++ [pr] } rest := by
  have h3' : (pr.number = st.current) = True := by simp [h3]
  simp [processPage, hm, h1, h2, h3']

/-- The inner page loop never writes the `current` flag variable. -/
theorem processPage_current (lastN : Nat) (page : List PullRequest) :
    ∀ st : ScanState, (processPage lastN st page).current = st.current := by
  induction page with
  | nil => intro st; rfl
  | cons pr rest ih =>
    intro st
    cases hm : pr.mergedAt with
    | none => rw [processPage_cons_unmerged lastN st pr rest hm]; exact ih st
    | some m =>
      by_cases h1 : pr.number = lastN
      · rw [processPage_cons_last lastN st pr rest m hm h1]
      · cases h2 : termCond st.lastMerged pr with
        | true => rw [processPage_cons_term lastN st pr rest m hm h1 h2]
        | false =>
          by_cases h3 : pr.number = st.current
          · rw [processPage_cons_cur lastN st pr rest m hm h1 h2 h3]; exact ih _
          · rw [processPage_cons_plain lastN st pr rest m hm h1 h2 h3]; exact ih _

/-- The page loop never removes candidates: anything in the slice stays. -/
theorem processPage_prs_mono (lastN : Nat) (page : List PullRequest) :
    ∀ (st : ScanState) (q : PullRequest), q ∈ st.prs → q ∈ (processPage lastN st page).prs := by
  induction page with
  | nil => intro st q hq; exact hq
  | cons pr rest ih =>
    intro st q hq
    cases hm : pr.mergedAt with
    | none => rw [processPage_cons_unmerged lastN st pr rest hm]; exact ih st q hq
    | some m =>
      by_cases h1 : pr.number = lastN
      · rw [processPage_cons_last lastN st pr rest m hm h1]; exact hq
      · cases h2 : termCond st.lastMerged pr with
        | true => rw [processPage_cons_term lastN st pr rest m hm h1 h2]; exact hq
        | false =>
          by_cases h3 : pr.number = st.current
          · rw [processPage_cons_cur lastN st pr rest m hm h1 h2 h3]
            exact ih _ q (List.mem_append_left _ hq)
          · rw [processPage_cons_plain lastN st pr rest m hm h1 h2 h3]
            exact ih _ q (List.mem_append_left _ hq)

/-- Once the `current` flag variable is nonzero, the fetch loop never
changes it (the `current == 0` branch is dead). -/
theorem scan_current_of_ne (lastN : Nat) (pages : List (List PullRequest)) :
    ∀ st : ScanState, st.current ≠ 0 → (scan lastN st pages).current = st.current := by
  induction pages with
  | nil => intro st _; rfl
  | cons page rest ih =>
    intro st h
    by_cases hd : st.done
    · simp [scan, hd]
    · cases page with
      | nil => simp [scan, hd]
      | cons p ps =>
        have hstep : scan lastN st ((p :: ps) :: rest)
            = scan lastN (processPage lastN st (p :: ps)) rest := by
          simp [scan, hd, h]
        rw [hstep, ih _ (by rw [processPage_current]; exact h), processPage_current]

/-- The page loop only ever appends merged PRs to the candidate slice: the
`MergedAt == nil` skip (release.go lines 115-118) precedes every append. -/
theorem processPage_merged (lastN : Nat) (page : List PullRequest) :
    ∀ st : ScanState, (∀ pr ∈ st.prs, pr.mergedAt ≠ none) →
      ∀ pr ∈ (processPage lastN st page).prs, pr.mergedAt ≠ none := by
  induction page with
  | nil => intro st h; exact h
  | cons pr rest ih =>
    intro st h
    cases hm : pr.mergedAt with
    | none => rw [processPage_cons_unmerged lastN st pr rest hm]; exact ih st h
    | some m =>
      have happ : ∀ l : List PullRequest, (∀ q ∈ l, q.mergedAt ≠ none) →
          ∀ q ∈ l ++ [pr], q.mergedAt ≠ none := by
        intro l hl q hq
        rcases List.mem_append.mp hq with hq | hq
        · exact hl q hq
        · rw [List.mem_singleton.mp hq, hm]; exact Option.noConfusion
      by_cases h1 : pr.number = lastN
      · rw [processPage_cons_last lastN st pr rest m hm h1]; exact h
      · cases h2 : termCond st.lastMerged pr with
        | true => rw [processPage_cons_term lastN st pr rest m hm h1 h2]; exact h
        | false =>
          by_cases h3 : pr.number = st.current
          · rw [processPage_cons_cur lastN st pr rest m hm h1 h2 h3]
            exact ih _ (happ st.prs h)
          · rw [processPage_cons_plain lastN st pr rest m hm h1 h2 h3]
            exact ih _ (happ st.prs h)

/-- The fetch loop preserves the all-merged invariant of the candidate
slice, from any state and over any page sequence. -/
theorem scan_merged (lastN : Nat) (pages : List (List PullRequest)) :
    ∀ st : ScanState, (∀ pr ∈ st.prs, pr.mergedAt ≠ none) →
      ∀ pr ∈ (scan lastN st pages).prs, pr.mergedAt ≠ none := by
  induction pages with
  | nil => intro st h; exact h
  | cons page rest ih =>
    intro st h
    by_cases hd : st.done
    · simpa [scan, hd] using h
    · cases page with
      | nil => simpa [scan, hd] using h
      | cons p ps =>
        have hstep : scan lastN st ((p :: ps) :: rest)
            = scan lastN (processPage lastN
                (if st.current = 0 then { st with current := p.number } else st) (p :: ps)) rest := by
          simp [scan, hd]
        rw [hstep]
        refine ih _ (processPage_merged lastN (p :: ps) _ ?_)
        by_cases hc : st.current = 0 <;> simp [hc] <;> exact h

/-! Helper lemmas about the formatting loop. -/

/-- Unfolding `genNotes` when the window guard panics. -/
theorem genNotes_cons_panic (f : Bool) (lf : Nat → Except Unit (List String))
    (lastM currM : Option Int) (pr : PullRequest) (rest : List PullRequest)
    (hw : windowCond lastM currM pr = none) :
    genNotes f lf lastM currM (pr :: rest) = ([], none) := by
  simp [genNotes, hw]

/-- Unfolding `genNotes` when the window guard rejects the PR. -/
theorem genNotes_cons_false (f : Bool) (lf : Nat → Except Unit (List String))
    (lastM currM : Option Int) (pr : PullRequest) (rest : List PullRequest)
    (hw : windowCond lastM currM pr = some false) :
    genNotes f lf lastM currM (pr :: rest) = genNotes f lf lastM currM rest := by
  simp [genNotes, hw]

/-- Unfolding `genNotes` on an in-window PR with the label filter off:
the PR is emitted once (release.go line 143). -/
theorem genNotes_cons_true_nofilter (lf : Nat → Except Unit (List String))
    (lastM currM : Option Int) (pr : PullRequest) (rest : List PullRequest)
    (hw : windowCond lastM currM pr = some true) :
    genNotes false lf lastM currM (pr :: rest)
      = ((genNotes false lf lastM currM rest).1,
         (genNotes false lf lastM currM rest).2.map (fun tail => pr :: tail)) := by
  simp [genNotes, hw]

/-- Unfolding `genNotes` on an in-window PR with the filter on and a failed
label call (release.go lines 147-153): the call and the sleep are observed
and the run aborts. -/
theorem genNotes_cons_true_err (lf : Nat → Except Unit (List String))
    (lastM currM : Option Int) (pr : PullRequest) (rest : List PullRequest) (e : Unit)
    (hw : windowCond lastM currM pr = some true) (he : lf pr.number = Except.error e) :
    genNotes true lf lastM currM (pr :: rest)
      = ([Event.listLabels pr.number, Event.sleep 5], none) := by
  simp [genNotes, hw, he]

/-- Unfolding `genNotes` on an in-window PR with the filter on and a
successful label call (release.go lines 147-158): the PR is emitted once
per label named `release-note`. -/
theorem genNotes_cons_true_ok (lf : Nat → Except Unit (List String))
    (lastM currM : Option Int) (pr : PullRequest) (rest : List PullRequest)
    (labels : List String)
    (hw : windowCond lastM currM pr = some true) (hk : lf pr.number = Except.ok labels) :
    genNotes true lf lastM currM (pr :: rest)
      = (Event.listLabels pr.number :: Event.sleep 5 :: (genNotes true lf lastM currM rest).1,
         (genNotes true lf lastM currM rest).2.map (fun tail =>
           (labels.filter (fun s => s == "release-note")).map (fun _ => pr) ++ tail)) := by
  simp [genNotes, hw, hk]

/-- The window guard returns `true` exactly when both boundary pointers are
non-nil, the PR is merged, and its merge time lies strictly between the two
boundary times. -/
theorem windowCond_eq_some_true_iff (lastM currM : Option Int) (pr : PullRequest) :
    windowCond lastM currM pr = some true ↔
      ∃ l m c, lastM = some l ∧ pr.mergedAt = some m ∧ currM = some c ∧ l < m ∧ m < c := by
  cases lastM with
  | none => simp [windowCond]
  | some l =>
    cases hm : pr.mergedAt with
    | none => simp [windowCond, hm]
    | some m =>
      cases currM with
      | none =>
        by_cases hlm : l < m <;> simp [windowCond, hm, hlm]
      | some c =>
        by_cases hlm : l < m
        · simp only [windowCond, hm, if_pos hlm, Option.some.injEq, decide_eq_true_eq]
          constructor
          · intro hmc; exact ⟨l, m, c, rfl, rfl, rfl, hlm, hmc⟩
          · rintro ⟨l', m', c', hl', hm', hc', _, hmc⟩
            cases hl'; cases hm'; cases hc'; exact hmc
        · simp only [windowCond, hm, if_neg hlm]
          constructor
          · intro h; exact absurd h (by simp)
          · rintro ⟨l', m', c', hl', hm', hc', hlm', _⟩
            cases hl'; cases hm'; cases hc'; exact absurd hlm' hlm

/-- The window guard of a merged PR evaluates without a panic exactly when
the lower boundary is recorded and either the merge time is at most the
lower boundary (the right conjunct is short-circuited away) or the upper
boundary is recorded as well. -/
theorem windowCond_isSome_iff (lastM currM : Option Int) (pr : PullRequest) (m : Int)
    (hm : pr.mergedAt = some m) :
    (windowCond lastM currM pr).isSome = true ↔
      ∃ l, lastM = some l ∧ (m ≤ l ∨ currM ≠ none) := by
  cases lastM with
  | none => simp [windowCond]
  | some l =>
    by_cases hlm : l < m
    · cases currM with
      | none =>
        constructor
        · intro h
          simp [windowCond, hm, if_pos hlm] at h
        · rintro ⟨l2, hl2, hcase⟩
          injection hl2 with h
          subst h
          rcases hcase with hle | hne
          · exact (by omega : False).elim
          · exact absurd rfl hne
      | some c => simp [windowCond, hm, if_pos hlm]
    · simp [windowCond, hm, if_neg hlm, not_lt.mp hlm]

/-- A list whose elements are all one fixed point of a reflexive-at-that-
point relation is pairwise related. -/
theorem pairwise_const_map {α β : Type} {R : β → β → Prop} (x : β) (hx : R x x) :
    ∀ l : List α, List.Pairwise R (l.map (fun _ => x)) := by
  intro l
  induction l with
  | nil => exact List.Pairwise.nil
  | cons a t ih =>
    refine List.pairwise_cons.mpr ⟨?_, ih⟩
    intro b hb
    obtain ⟨c, _, hc⟩ := List.mem_map.mp hb
    rw [← hc]
    exact hx

/-- Every PR emitted by the formatting loop comes from the input list and
passed the window guard. -/
theorem genNotes_mem (f : Bool) (lf : Nat → Except Unit (List String))
    (lastM currM : Option Int) :
    ∀ (prs out : List PullRequest), (genNotes f lf lastM currM prs).2 = some out →
      ∀ pr ∈ out, pr ∈ prs ∧ windowCond lastM currM pr = some true := by
  intro prs
  induction prs with
  | nil =>
    intro out h pr hpr
    simp [genNotes] at h
    subst h
    exact absurd hpr (List.not_mem_nil pr)
  | cons p rest ih =>
    intro out h pr hpr
    cases hw : windowCond lastM currM p with
    | none => rw [genNotes_cons_panic f lf lastM currM p rest hw] at h; exact absurd h (by simp)
    | some b =>
      cases b with
      | false =>
        rw [genNotes_cons_false f lf lastM currM p rest hw] at h
        obtain ⟨hmem, hwin⟩ := ih out h pr hpr
        exact ⟨List.mem_cons_of_mem p hmem, hwin⟩
      | true =>
        cases f with
        | false =>
          rw [genNotes_cons_true_nofilter lf lastM currM p rest hw] at h
          simp only [Option.map_eq_some'] at h
          obtain ⟨tail, htail, hout⟩ := h
          subst hout
          rcases List.mem_cons.mp hpr with hpr | hpr
          · subst hpr; exact ⟨List.mem_cons_self pr rest, hw⟩
          · obtain ⟨hmem, hwin⟩ := ih tail htail pr hpr
            exact ⟨List.mem_cons_of_mem p hmem, hwin⟩
        | true =>
          cases hk : lf p.number with
          | error e =>
            rw [genNotes_cons_true_err lf lastM currM p rest e hw hk] at h
            exact absurd h (by simp)
          | ok labels =>
            rw [genNotes_cons_true_ok lf lastM currM p rest labels hw hk] at h
            simp only [Option.map_eq_some'] at h
            obtain ⟨tail, htail, hout⟩ := h
            subst hout
            rcases List.mem_append.mp hpr with hpr | hpr
            · obtain ⟨s, _, hs⟩ := List.mem_map.mp hpr
              subst hs
              exact ⟨List.mem_cons_self p rest, hw⟩
            · obtain ⟨hmem, hwin⟩ := ih tail htail pr hpr
              exact ⟨List.mem_cons_of_mem p hmem, hwin⟩

/-- The formatting loop emits PRs in input order: a sorted-by-merge-time
input yields a sorted-by-merge-time output (replications of one PR compare
equal, so they do not disturb the order). -/
theorem genNotes_pairwise (f : Bool) (lf : Nat → Except Unit (List String))
    (lastM currM : Option Int) :
    ∀ (prs out : List PullRequest), prs.Pairwise byMerged →
      (genNotes f lf lastM currM prs).2 = some out → out.Pairwise byMerged := by
  intro prs
  induction prs with
  | nil =>
    intro out _ h
    simp [genNotes] at h
    subst h
    exact List.Pairwise.nil
  | cons p rest ih =>
    intro out hpw h
    obtain ⟨hhead, hrest⟩ := List.pairwise_cons.mp hpw
    cases hw : windowCond lastM currM p with
    | none => rw [genNotes_cons_panic f lf lastM currM p rest hw] at h; exact absurd h (by simp)
    | some b =>
      cases b with
      | false =>
        rw [genNotes_cons_false f lf lastM currM p rest hw] at h
        exact ih out hrest h
      | true =>
        cases f with
        | false =>
          rw [genNotes_cons_true_nofilter lf lastM currM p rest hw] at h
          simp only [Option.map_eq_some'] at h
          obtain ⟨tail, htail, hout⟩ := h
          subst hout
          refine List.pairwise_cons.mpr ⟨?_, ih tail hrest htail⟩
          intro x hx
          exact hhead x (genNotes_mem false lf lastM currM rest tail htail x hx).1
        | true =>
          cases hk : lf p.number with
          | error e =>
            rw [genNotes_cons_true_err lf lastM currM p rest e hw hk] at h
            exact absurd h (by simp)
          | ok labels =>
            rw [genNotes_cons_true_ok lf lastM currM p rest labels hw hk] at h
            simp only [Option.map_eq_some'] at h
            obtain ⟨tail, htail, hout⟩ := h
            subst hout
            refine List.pairwise_append.mpr ⟨?_, ih tail hrest htail, ?_⟩
            · exact pairwise_const_map p (le_refl (mergedKey p)) _
            · intro a ha b hb
              obtain ⟨s, _, hs⟩ := List.mem_map.mp ha
              subst hs
              exact hhead b (genNotes_mem true lf lastM currM rest tail htail b hb).1

/-- With the filter off, the formatting loop finishes without a panic
exactly when the window guard of every candidate evaluates. -/
theorem genNotes_nofilter_isSome (lf : Nat → Except Unit (List String))
    (lastM currM : Option Int) :
    ∀ prs : List PullRequest,
      (genNotes false lf lastM currM prs).2.isSome
        = prs.all (fun pr => (windowCond lastM currM pr).isSome) := by
  intro prs
  induction prs with
  | nil => rfl
  | cons p rest ih =>
    cases hw : windowCond lastM currM p with
    | none => simp [genNotes_cons_panic false lf lastM currM p rest hw, hw]
    | some b =>
      cases b with
      | false => simp [genNotes_cons_false false lf lastM currM p rest hw, hw, ih]
      | true => simp [genNotes_cons_true_nofilter lf lastM currM p rest hw, hw, ih]

/-- With the filter on, every emitted PR's label call succeeded and
returned a label named exactly `release-note`. -/
theorem genNotes_filter_labels (lf : Nat → Except Unit (List String))
    (lastM currM : Option Int) :
    ∀ (prs out : List PullRequest), (genNotes true lf lastM currM prs).2 = some out →
      ∀ pr ∈ out, ∃ labels, lf pr.number = Except.ok labels ∧ "release-note" ∈ labels := by
  intro prs
  induction prs with
  | nil =>
    intro out h pr hpr
    simp [genNotes] at h
    subst h
    exact absurd hpr (List.not_mem_nil pr)
  | cons p rest ih =>
    intro out h pr hpr
    cases hw : windowCond lastM currM p with
    | none => rw [genNotes_cons_panic true lf lastM currM p rest hw] at h; exact absurd h (by simp)
    | some b =>
      cases b with
      | false =>
        rw [genNotes_cons_false true lf lastM currM p rest hw] at h
        exact ih out h pr hpr
      | true =>
        cases hk : lf p.number with
        | error e =>
          rw [genNotes_cons_true_err lf lastM currM p rest e hw hk] at h
          exact absurd h (by simp)
        | ok labels =>
          rw [genNotes_cons_true_ok lf lastM currM p rest labels hw hk] at h
          simp only [Option.map_eq_some'] at h
          obtain ⟨tail, htail, hout⟩ := h
          subst hout
          rcases List.mem_append.mp hpr with hpr | hpr
          · obtain ⟨s, hsmem, hs⟩ := List.mem_map.mp hpr
            subst hs
            obtain ⟨hsl, hseq⟩ := List.mem_filter.mp hsmem
            have hseq' : s = "release-note" := by simpa using hseq
            exact ⟨labels, hk, hseq' ▸ hsl⟩
          · exact ih tail htail pr hpr

/-- Every `ListLabelsByIssue` call the formatting loop makes is followed
immediately by the 5 second sleep, whether the call succeeded or failed
(release.go lines 147-153: the sleep precedes the error check). -/
theorem genNotes_sleep (lf : Nat → Except Unit (List String)) (lastM currM : Option Int) :
    ∀ prs : List PullRequest,
      sleepAfterEveryCall (genNotes true lf lastM currM prs).1 = true := by
  intro prs
  induction prs with
  | nil => rfl
  | cons p rest ih =>
    cases hw : windowCond lastM currM p with
    | none => rw [genNotes_cons_panic true lf lastM currM p rest hw]; rfl
    | some b =>
      cases b with
      | false => rw [genNotes_cons_false true lf lastM currM p rest hw]; exact ih
      | true =>
        cases hk : lf p.number with
        | error e => rw [genNotes_cons_true_err lf lastM currM p rest e hw hk]; rfl
        | ok labels =>
          rw [genNotes_cons_true_ok lf lastM currM p rest labels hw hk]
          simpa [sleepAfterEveryCall] using ih

/-! Claim theorems. -/

/-- Claim C1: for every set of fetched pull requests (any boundary flags
and any filter setting), every PR in the generated note list has a non-null
merge timestamp lying strictly between the recorded merge timestamp of the
`last` boundary PR and the recorded merge timestamp of the `current`
boundary PR; no PR merged at or outside those boundaries is emitted. -/
theorem notes_only_strictly_between (lastN curFlag : Nat) (f : Bool)
    (lf : Nat → Except Unit (List String)) (pages : List (List PullRequest))
    (out : List PullRequest)
    (h : (genNotes f lf (runScan lastN curFlag pages).lastMerged
            (runScan lastN curFlag pages).currentMerged
            (sortByMerged (runScan lastN curFlag pages).prs)).2 = some out) :
    ∀ pr ∈ out, ∃ m l c : Int, pr.mergedAt = some m ∧
      (runScan lastN curFlag pages).lastMerged = some l ∧
      (runScan lastN curFlag pages).currentMerged = some c ∧ l < m ∧ m < c := by
  intro pr hpr
  obtain ⟨-, hwin⟩ := genNotes_mem f lf _ _ _ out h pr hpr
  obtain ⟨l, m, c, hl, hm, hc, hlm, hmc⟩ := (windowCond_eq_some_true_iff _ _ _).mp hwin
  exact ⟨m, l, c, hm, hl, hc, hlm, hmc⟩

/-- Witness for the C1 theorem at the spec's concrete example: last = 10
merged at 10, current = 20 merged at 20, other PRs merged at 5, 15 and 25;
only the PR merged at 15 is emitted, and it lies strictly inside. -/
theorem notes_only_strictly_between_witness :
    ((genNotes false exLabels (runScan 10 20 exPages).lastMerged
        (runScan 10 20 exPages).currentMerged
        (sortByMerged (runScan 10 20 exPages).prs)).2 = some [prMid]) ∧
    (∀ pr ∈ [prMid], ∃ m l c : Int, pr.mergedAt = some m ∧
      (runScan 10 20 exPages).lastMerged = some l ∧
      (runScan 10 20 exPages).currentMerged = some c ∧ l < m ∧ m < c) :=
  ⟨rfl, notes_only_strictly_between 10 20 false exLabels exPages [prMid] rfl⟩

/-- Claim C2: the candidate list is sorted ascending by merge time before
formatting, and the emitted note list is ordered non-decreasing by merge
timestamp (ties in arbitrary order). -/
theorem notes_sorted_by_merge_time (lastN curFlag : Nat) (f : Bool)
    (lf : Nat → Except Unit (List String)) (pages : List (List PullRequest))
    (out : List PullRequest)
    (h : (genNotes f lf (runScan lastN curFlag pages).lastMerged
            (runScan lastN curFlag pages).currentMerged
            (sortByMerged (runScan lastN curFlag pages).prs)).2 = some out) :
    (sortByMerged (runScan lastN curFlag pages).prs).Pairwise byMerged ∧
      out.Pairwise byMerged := by
  have hs : (sortByMerged (runScan lastN curFlag pages).prs).Pairwise byMerged :=
    List.sorted_insertionSort byMerged _
  exact ⟨hs, genNotes_pairwise f lf _ _ _ out hs h⟩

/-- Witness for the C2 theorem at the concrete example run. -/
theorem notes_sorted_by_merge_time_witness :
    (sortByMerged (runScan 10 20 exPages).prs).Pairwise byMerged ∧
      List.Pairwise byMerged [prMid] :=
  notes_sorted_by_merge_time 10 20 false exLabels exPages [prMid] rfl

/-- Claim C4 counterexample: a non-empty all-merged candidate list (one
candidate merged at 3), lower boundary recorded at 10, upper boundary never
recorded (`nil`): the formatting loop still completes without dereferencing
any `nil` pointer, because `&&` short-circuits — the left conjunct
`lastVersionMerged.Before(*pr.MergedAt)` is false, so the right conjunct
never dereferences `currentVersionMerged`.  This refutes the claimed
equivalence of dereference safety with both boundaries having resolved. -/
theorem deref_safe_without_current_boundary :
    ([prEarly] ≠ ([] : List PullRequest)) ∧
    (∀ pr ∈ [prEarly], pr.mergedAt ≠ none) ∧
    ((genNotes false exLabels (some 10) (none : Option Int) [prEarly]).2.isSome = true) := by
  decide

/-- Claim C4, amended: for a non-empty all-merged candidate list, the
formatting loop is free of `nil` dereferences if and only if the `last`
boundary resolved and, in addition, either the `current` boundary resolved
or every candidate was merged at or before the `last` boundary time (in
which latter case the short-circuited right conjunct never touches the
`current` pointer). -/
theorem deref_safe_iff_boundaries (lastM currM : Option Int)
    (lf : Nat → Except Unit (List String)) (prs : List PullRequest)
    (hne : prs ≠ []) (hmerged : ∀ pr ∈ prs, pr.mergedAt ≠ none) :
    (genNotes false lf lastM currM prs).2.isSome = true ↔
      ∃ l, lastM = some l ∧
        (currM ≠ none ∨ ∀ pr ∈ prs, ∀ m : Int, pr.mergedAt = some m → m ≤ l) := by
  rw [genNotes_nofilter_isSome, List.all_eq_true]
  constructor
  · intro hall
    obtain ⟨p0, hp0⟩ := List.exists_mem_of_ne_nil prs hne
    obtain ⟨m0, hm0⟩ := Option.ne_none_iff_exists'.mp (hmerged p0 hp0)
    obtain ⟨l, hl, -⟩ := (windowCond_isSome_iff lastM currM p0 m0 hm0).mp (hall p0 hp0)
    refine ⟨l, hl, ?_⟩
    by_cases hc : currM = none
    · right
      intro pr hpr m hm
      obtain ⟨l2, hl2, hcase⟩ := (windowCond_isSome_iff lastM currM pr m hm).mp (hall pr hpr)
      rw [hl] at hl2
      injection hl2 with hll
      subst hll
      rcases hcase with hle | hne2
      · exact hle
      · exact absurd hc hne2
    · left; exact hc
  · rintro ⟨l, hl, hcase⟩
    intro pr hpr
    obtain ⟨m, hm⟩ := Option.ne_none_iff_exists'.mp (hmerged pr hpr)
    rw [windowCond_isSome_iff lastM currM pr m hm]
    rcases hcase with hc | hall
    · exact ⟨l, hl, Or.inr hc⟩
    · exact ⟨l, hl, Or.inl (hall pr hpr m hm)⟩

/-- Witness for the amended C4 theorem at a concrete input with both
boundaries resolved. -/
theorem deref_safe_iff_boundaries_witness :
    (genNotes false exLabels (some 10) (some 20) [prMid]).2.isSome = true ↔
      ∃ l, (some (10 : Int)) = some l ∧
        ((some (20 : Int)) ≠ none ∨
          ∀ pr ∈ [prMid], ∀ m : Int, pr.mergedAt = some m → m ≤ l) :=
  deref_safe_iff_boundaries (some 10) (some 20) exLabels [prMid]
    (by decide) (by decide)

/-- Claim C5 counterexample: scanning a single page whose only PR is merged
and numbered `current` (= 20): its merge time is recorded as the upper
boundary AND the PR itself ends up in the candidate list — the accumulation
of release.go line 133 also runs on the `current` match (there is no
`continue`), contradicting "the PR is not accumulated as a candidate". -/
theorem current_pr_is_accumulated :
    (runScan 10 20 exPagesCurOnly).currentMerged = some 5 ∧
    (runScan 10 20 exPagesCurOnly).prs = [prCurOnly] :=
  ⟨rfl, rfl⟩

/-- Claim C5, amended: when the page scan reaches a merged PR whose number
equals `current` (the PR being neither the `last` PR nor past the
termination test), its merge time is recorded as the upper boundary and the
PR is ALSO accumulated into the candidate list, after which the page scan
continues; it is excluded from the output only later, by the strict window
comparison. -/
theorem current_pr_recorded_and_accumulated (lastN : Nat) (st : ScanState)
    (pr : PullRequest) (rest : List PullRequest) (m : Int)
    (hm : pr.mergedAt = some m) (h1 : pr.number ≠ lastN)
    (h2 : termCond st.lastMerged pr = false) (h3 : pr.number = st.current) :
    processPage lastN st (pr :: rest)
      = processPage lastN { st with currentMerged := some m, prs := st.prs ++ [pr] } rest ∧
    pr ∈ (processPage lastN st (pr :: rest)).prs := by
  have hstep := processPage_cons_cur lastN st pr rest m hm h1 h2 h3
  refine ⟨hstep, ?_⟩
  rw [hstep]
  exact processPage_prs_mono lastN rest _ pr
    (List.mem_append_right _ (List.mem_singleton_self pr))

/-- Witness for the amended C5 theorem at the concrete one-PR page. -/
theorem current_pr_recorded_and_accumulated_witness :
    (processPage 10 (initState 20) [prCurOnly]
      = processPage 10
          { initState 20 with currentMerged := some 5, prs := (initState 20).prs ++ [prCurOnly] }
          []) ∧
    prCurOnly ∈ (processPage 10 (initState 20) [prCurOnly]).prs :=
  current_pr_recorded_and_accumulated 10 (initState 20) prCurOnly [] 5
    rfl (by decide) rfl rfl

/-- Claim C3: when both the tag name and the release name are supplied, the
publish phase issues exactly one create-release call, and its target is the
literal pair `("zjj2wry", "console-web")` whatever the owner and repository
flags hold (the result does not depend on them at all); on success the
release URL is printed and the exit code is 0, on failure the exit code
is 1. -/
theorem create_release_hardcoded_target (owner repository : String) (lastN currentN : Nat)
    (base tagName releaseName : String) (preRelease : Bool) (body : String)
    (api : String → String → ReleaseDraft → Except Unit String)
    (h1 : tagName ≠ "") (h2 : releaseName ≠ "") :
    ((finishMain owner repository lastN currentN base tagName releaseName preRelease body
        api).1.filter isCreateRelease
      = [Action.createRelease "zjj2wry" "console-web"
          (mkDraft tagName releaseName preRelease body)]) ∧
    (∀ owner2 repository2 : String,
      finishMain owner2 repository2 lastN currentN base tagName releaseName preRelease body api
        = finishMain owner repository lastN currentN base tagName releaseName preRelease body
            api) ∧
    (∀ url, api "zjj2wry" "console-web" (mkDraft tagName releaseName preRelease body)
        = Except.ok url →
      Action.printReleaseUrl url
          ∈ (finishMain owner repository lastN currentN base tagName releaseName preRelease body
              api).1 ∧
      (finishMain owner repository lastN currentN base tagName releaseName preRelease body
        api).2 = 0) ∧
    (∀ e, api "zjj2wry" "console-web" (mkDraft tagName releaseName preRelease body)
        = Except.error e →
      (finishMain owner repository lastN currentN base tagName releaseName preRelease body
        api).2 = 1) := by
  have hcond : ¬ (tagName = "" ∨ releaseName = "") := by
    rintro (h | h)
    · exact h1 h
    · exact h2 h
  refine ⟨?_, fun o2 r2 => rfl, ?_, ?_⟩
  · cases hapi : api "zjj2wry" "console-web" (mkDraft tagName releaseName preRelease body) with
    | error e => simp [finishMain, hcond, hapi, isCreateRelease, List.filter]
    | ok url => simp [finishMain, hcond, hapi, isCreateRelease, List.filter]
  · intro url hu
    refine ⟨?_, ?_⟩ <;> simp [finishMain, hcond, hu]
  · intro e he
    simp [finishMain, hcond, he]

/-- Witness for the C3 theorem at concrete flag values and a succeeding
API. -/
theorem create_release_hardcoded_target_witness :
    ((finishMain "caicloud" "console-web" 10 20 "master" "v1.0.0" "v1 notes" false "body"
        exApiOk).1.filter isCreateRelease
      = [Action.createRelease "zjj2wry" "console-web"
          (mkDraft "v1.0.0" "v1 notes" false "body")]) ∧
    (∀ owner2 repository2 : String,
      finishMain owner2 repository2 10 20 "master" "v1.0.0" "v1 notes" false "body" exApiOk
        = finishMain "caicloud" "console-web" 10 20 "master" "v1.0.0" "v1 notes" false "body"
            exApiOk) ∧
    (∀ url, exApiOk "zjj2wry" "console-web"
        (mkDraft "v1.0.0" "v1 notes" false "body") = Except.ok url →
      Action.printReleaseUrl url
          ∈ (finishMain "caicloud" "console-web" 10 20 "master" "v1.0.0" "v1 notes" false "body"
              exApiOk).1 ∧
      (finishMain "caicloud" "console-web" 10 20 "master" "v1.0.0" "v1 notes" false "body"
        exApiOk).2 = 0) ∧
    (∀ e, exApiOk "zjj2wry" "console-web"
        (mkDraft "v1.0.0" "v1 notes" false "body") = Except.error e →
      (finishMain "caicloud" "console-web" 10 20 "master" "v1.0.0" "v1 notes" false "body"
        exApiOk).2 = 1) :=
  create_release_hardcoded_target "caicloud" "console-web" 10 20 "master" "v1.0.0" "v1 notes"
    false "body" exApiOk (by decide) (by decide)

/-- Claim C6: when the `current` flag is unset (0), the scan resolves it to
the PR number of the first item of the first fetched (non-empty) page —
whether or not that PR is merged — and never reassigns it afterwards: the
final state still carries that number after arbitrarily many further pages
(PR numbers are positive, hypothesis `hp`). -/
theorem current_defaults_to_first_fetched (lastN : Nat) (p : PullRequest)
    (ps : List PullRequest) (rest : List (List PullRequest)) (hp : p.number ≠ 0) :
    (runScan lastN 0 ((p :: ps) :: rest)).current = p.number := by
  have hstep : runScan lastN 0 ((p :: ps) :: rest)
      = scan lastN (processPage lastN { initState 0 with current := p.number } (p :: ps))
          rest := rfl
  have hcur : (processPage lastN { initState 0 with current := p.number } (p :: ps)).current
      = p.number := processPage_current lastN (p :: ps) _
  rw [hstep, scan_current_of_ne lastN rest _ (by rw [hcur]; exact hp), hcur]

/-- Witness for the C6 theorem: the first fetched PR (number 25, and
unmerged here) becomes `current`. -/
theorem current_defaults_to_first_fetched_witness :
    prFirstUnmerged.number ≠ 0 ∧
    (runScan 10 0 [[prFirstUnmerged], []]).current = prFirstUnmerged.number :=
  ⟨by decide, current_defaults_to_first_fetched 10 prFirstUnmerged [] [[]] (by decide)⟩

/-- Claim C7: with the label filter enabled, a PR inside the boundary
window is emitted only if its label-listing call succeeded and returned a
label named exactly `release-note`; and a fixed 5 second sleep immediately
follows every label-listing call, whether the call succeeded or failed. -/
theorem relnote_filter_and_sleep (lastM currM : Option Int)
    (lf : Nat → Except Unit (List String)) (prs : List PullRequest) :
    sleepAfterEveryCall (genNotes true lf lastM currM prs).1 = true ∧
    ∀ out, (genNotes true lf lastM currM prs).2 = some out →
      ∀ pr ∈ out, ∃ labels, lf pr.number = Except.ok labels ∧ "release-note" ∈ labels :=
  ⟨genNotes_sleep lf lastM currM prs,
   fun out h pr hpr => genNotes_filter_labels lf lastM currM prs out h pr hpr⟩

/-- Witness for the C7 theorem at a concrete filtered run. -/
theorem relnote_filter_and_sleep_witness :
    sleepAfterEveryCall (genNotes true exLabels (some 10) (some 20) [prMid]).1 = true ∧
    ∀ out, (genNotes true exLabels (some 10) (some 20) [prMid]).2 = some out →
      ∀ pr ∈ out, ∃ labels, exLabels pr.number = Except.ok labels ∧ "release-note" ∈ labels :=
  relnote_filter_and_sleep (some 10) (some 20) exLabels [prMid]

/-- Claim C8: when the tag name or the release name flag is empty, no
create-release call is issued, the notes block is still printed in full,
and the exit code is 1. -/
theorem missing_name_skips_release (owner repository : String) (lastN currentN : Nat)
    (base tagName releaseName : String) (preRelease : Bool) (body : String)
    (api : String → String → ReleaseDraft → Except Unit String)
    (h : tagName = "" ∨ releaseName = "") :
    ((finishMain owner repository lastN currentN base tagName releaseName preRelease body
        api).1.filter isCreateRelease = []) ∧
    Action.printNotes body
        ∈ (finishMain owner repository lastN currentN base tagName releaseName preRelease body
            api).1 ∧
    (finishMain owner repository lastN currentN base tagName releaseName preRelease body
      api).2 = 1 := by
  refine ⟨?_, ?_, ?_⟩ <;> simp [finishMain, h, isCreateRelease, List.filter]

/-- Witness for the C8 theorem with an empty tag name: notes printed, no
release call, exit code 1. -/
theorem missing_name_skips_release_witness :
    ((finishMain "caicloud" "console-web" 10 20 "master" "" "v1 notes" false "body"
        exApiOk).1.filter isCreateRelease = []) ∧
    Action.printNotes "body"
        ∈ (finishMain "caicloud" "console-web" 10 20 "master" "" "v1 notes" false "body"
            exApiOk).1 ∧
    (finishMain "caicloud" "console-web" 10 20 "master" "" "v1 notes" false "body"
      exApiOk).2 = 1 :=
  missing_name_skips_release "caicloud" "console-web" 10 20 "master" "" "v1 notes" false "body"
    exApiOk (Or.inl rfl)

/-- Claim C9: every PR accumulated into the candidate list has a non-null
merge timestamp — closed-but-unmerged PRs are skipped before any boundary
check — and the invariant is preserved by the whole fetch loop from any
state satisfying it; consequently every element of the sorted list fed to
the `byMerged` comparator is merged, making its dereferences safe. -/
theorem candidates_all_merged (lastN : Nat) (pages : List (List PullRequest))
    (st : ScanState) (h : ∀ pr ∈ st.prs, pr.mergedAt ≠ none) :
    (∀ pr ∈ (scan lastN st pages).prs, pr.mergedAt ≠ none) ∧
    (∀ pr ∈ sortByMerged (scan lastN st pages).prs, pr.mergedAt ≠ none) := by
  have hs := scan_merged lastN pages st h
  exact ⟨hs, fun pr hpr => hs pr ((List.mem_insertionSort byMerged).mp hpr)⟩

/-- Witness for the C9 theorem over the example pages, from the initial
(empty) state. -/
theorem candidates_all_merged_witness :
    (∀ pr ∈ (scan 10 (initState 20) exPages).prs, pr.mergedAt ≠ none) ∧
    (∀ pr ∈ sortByMerged (scan 10 (initState 20) exPages).prs, pr.mergedAt ≠ none) :=
  candidates_all_merged 10 exPages (initState 20) (by simp [initState])

/-- Claim C10: with the label filter enabled, a PR's note line is emitted
once per label named `release-note`, not at most once per PR: on this input
the label call returns two labels both named `release-note`, and the same
PR is emitted twice (hence its formatted line appears twice in the note
buffer). -/
theorem duplicate_labels_emit_twice :
    (genNotes true exLabelsDup (some 0) (some 10) [prDup]).2 = some [prDup, prDup] ∧
    ((genNotes true exLabelsDup (some 0) (some 10) [prDup]).2.map (List.map formatLine))
      = some [formatLine prDup, formatLine prDup] :=
  ⟨rfl, rfl⟩

end Release
